import Mathlib

/-!
# Verification of the buildr i18n translation service

Shallow embedding of the repository's translation logic:

* `src/util.ts` — `diffObjects` (the Gap Detector) and the filesystem helpers;
* `src/lib/translate.ts` — `TranslateService`: `getTranslations` (the
  recursive leaf-translation walk), `acquireMissingTranslations` (the
  per-file driver), `getDirectoryFiles` (directory-mode resolution),
  `createEmptyFiles` / `createEmptyFolders` and `runReference`.

JSON values are modelled by the inductive `JSON`; JavaScript objects are
association lists in insertion order (`JObj`).  JavaScript property lookup
`o[k]` is `jslookup`; a missing property (`undefined`) is `Option.none`.
lodash `isEqual` is structural deep equality, modelled by `jeq`.
Asynchronous code that can throw is modelled with `Except JSError`.
-/

set_option autoImplicit false

namespace Buildr

/-- A JSON value: string, number, boolean, null, or object
(an association list of key/value pairs in insertion order). -/
inductive JSON where
  | str : String → JSON
  | num : Int → JSON
  | bool : Bool → JSON
  | null : JSON
  | obj : List (String × JSON) → JSON

/-- A JavaScript object: key/value pairs in insertion order. -/
abbrev JObj := List (String × JSON)

/-- JavaScript property read `o[key]`: the value at the first binding of
`key`, or `none` for `undefined`. -/
def jslookup : JObj → String → Option JSON
  | [], _ => none
  | (k, v) :: rest, key => if k = key then some v else jslookup rest key

/-- JavaScript truthiness of a value: `""`, `0`, `false` and `null` are
falsy; every object is truthy. -/
def truthy : JSON → Bool
  | JSON.str s => s ≠ ""
  | JSON.num n => n ≠ 0
  | JSON.bool b => b
  | JSON.null => false
  | JSON.obj _ => true

/-- Truthiness of a possibly-missing value: `undefined` is falsy. -/
def truthyOpt : Option JSON → Bool
  | none => false
  | some v => truthy v

/-- lodash `isObject`: true exactly for objects (`undefined` and all
primitives are not objects). -/
def isObjectOpt : Option JSON → Bool
  | some (JSON.obj _) => true
  | _ => false

/-- Size of a JSON value, for termination of the recursions that walk into
object fields. -/
def jsize : JSON → Nat
  | JSON.str _ => 1
  | JSON.num _ => 1
  | JSON.bool _ => 1
  | JSON.null => 1
  | JSON.obj o => 1 + osize o
where
  /-- Size of an object's field list. -/
  osize : JObj → Nat
    | [] => 1
    | (_, v) :: rest => 1 + jsize v + osize rest

mutual

/-- lodash `isEqual` on JSON values: structural deep equality. -/
def jeq : JSON → JSON → Bool
  | JSON.str a, JSON.str b => a == b
  | JSON.num a, JSON.num b => a == b
  | JSON.bool a, JSON.bool b => a == b
  | JSON.null, JSON.null => true
  | JSON.obj a, JSON.obj b => oeq a b
  | _, _ => false
termination_by a _ => jsize a
decreasing_by all_goals (simp [jsize, jsize.osize]; try omega)

/-- lodash `isEqual` on object field lists (pointwise). -/
def oeq : JObj → JObj → Bool
  | [], [] => true
  | (k, v) :: r, (k2, v2) :: r2 => k == k2 && jeq v v2 && oeq r r2
  | _, _ => false
termination_by o _ => jsize.osize o
decreasing_by all_goals (simp [jsize, jsize.osize]; try omega)

end

/--
The Gap Detector, `diffObjects(base, obj)` from `src/util.ts`:

```ts
export function diffObjects(base: {}, obj: {}): {} {
  return transform(obj, (result, value, key) => {
    if (!isEqual(value, base[key])) {
      if (!base[key]) {
        result[key] = isObject(value) && isObject(base[key])
          ? diffObjects(value, base[key]) : value;
      }
    }
  });
}
```

lodash `transform` iterates the keys of `obj` (the second argument) in
insertion order, starting from an empty accumulator.  Note that the
recursive call swaps the arguments (`value` becomes the new base), and that
its guard `isObject(base[key])` can never hold under `!base[key]`, because
every JavaScript object is truthy.
-/
def diffObjects (base tgt : JObj) : JObj :=
  match tgt with
  | [] => []
  | (k, v) :: rest =>
    (match jslookup base k with
     | none =>
       -- isEqual(value, undefined) is false, !undefined is true,
       -- isObject(undefined) is false: the raw value is included.
       [(k, v)]
     | some b =>
       if jeq v b then []
       else
         match v, b with
         | JSON.obj vo, JSON.obj bo =>
           if h : truthy (JSON.obj bo) then []
           else [(k, JSON.obj (diffObjects vo bo))]
         | v, b => if truthy b then [] else [(k, v)])
    ++ diffObjects base rest
termination_by jsize.osize tgt
decreasing_by
  all_goals first
    | exact absurd rfl h
    | (simp [jsize.osize]; try omega)

/-- A thrown JavaScript error: either a rejection coming from the external
translation provider, or a `TypeError` raised by the driver itself. -/
inductive JSError where
  | providerError : String → JSError
  | typeError : String → JSError
  deriving DecidableEq

/-- The constant `MISSING_TRANSLATION = '***MISSING TRANSLATION***'` from
`src/lib/translate.ts`. -/
def MISSING_TRANSLATION : String := "***MISSING TRANSLATION***"

/-- The record returned by `getTranslations`:
`{ results: {}, translated: boolean }`. -/
structure TransResult where
  results : JObj
  translated : Bool

/-- The external provider `googleTranslate.translate(text, lang)`: returns
the translated string or rejects.  (The source destructures
`const [translation] = await ...translate(item, lang)`.) -/
abbrev Provider := String → String → Except JSError String

/--
Method `getTranslations(obj, lang)` from `src/lib/translate.ts`:

```ts
private async getTranslations(obj, lang) {
  const results = {};
  for (const key of Object.keys(obj)) {
    const item = obj[key];
    if (typeof item === 'string') {
      if (item.length > this.config.maxLength) {
        return { results: { ...results, [key]: MISSING_TRANSLATION },
                 translated: this.config.retranslate };
      } else {
        const [translation] = await this.googleTranslate.translate(item, lang);
        return { results: { ...results, [key]: translation }, translated: true };
      }
    } else {
      const val = await this.getTranslations(item, lang);
      return { results: { ...results, [key]: val.translated },
               translated: val.translated };
    }
  }
  // Will never get here
  return null;
}
```

Every branch of the loop body `return`s, so only the first key of `obj` is
ever processed (the accumulator `results` is still `{}` when spread), and
an empty `obj` yields `null` (modelled as `Option.none`).  A non-string,
non-object item makes the recursive call return `null` (for numbers and
booleans, `Object.keys` of a primitive is empty) or throw (for `null`,
`Object.keys(null)` throws); either way the subsequent `val.translated`
access raises a `TypeError`.
-/
def getTranslations (prov : Provider) (maxLength : Nat) (retranslate : Bool) :
    JObj → String → Except JSError (Option TransResult)
  | [], _ => .ok none
  | (key, item) :: _rest, lang =>
    match item with
    | JSON.str s =>
      if s.length > maxLength then
        .ok (some ⟨[(key, JSON.str MISSING_TRANSLATION)], retranslate⟩)
      else
        match prov s lang with
        | .error e => .error e
        | .ok t => .ok (some ⟨[(key, JSON.str t)], true⟩)
    | JSON.obj sub =>
      match getTranslations prov maxLength retranslate sub lang with
      | .error e => .error e
      | .ok none => .error (.typeError "Cannot read properties of null (reading translated)")
      | .ok (some val) => .ok (some ⟨[(key, JSON.bool val.translated)], val.translated⟩)
    | JSON.null => .error (.typeError "Cannot convert undefined or null to object")
    | JSON.num _ => .error (.typeError "Cannot read properties of null (reading translated)")
    | JSON.bool _ => .error (.typeError "Cannot read properties of null (reading translated)")
termination_by o _ => jsize.osize o
decreasing_by simp [jsize, jsize.osize]; omega

/-- JavaScript object spread `{ ...a, ...b }` for objects with distinct
keys: `a`'s keys come first in insertion order, a key present in both takes
`b`'s value, and `b`'s remaining keys follow. -/
def jsMerge (a b : JObj) : JObj :=
  a.map (fun kv =>
    match jslookup b kv.1 with
    | some w => (kv.1, w)
    | none => kv) ++
  b.filter (fun kv => (jslookup a kv.1).isNone)

/--
The body of the per-target-language task inside
`acquireMissingTranslations` (`src/lib/translate.ts`):

```ts
const original = require(pathh);
const updates = await this.getTranslations(diffObjects(base, original), lang);
await writeFile(pathh, JSON.stringify({ ...updates.results, ...original }));
```

Returns the content written to the target file, or the thrown error; when
`getTranslations` returns `null` the access `updates.results` raises a
`TypeError` and nothing is written.
-/
def translateTarget (prov : Provider) (maxLength : Nat) (retranslate : Bool)
    (base original : JObj) (lang : String) : Except JSError JObj :=
  match getTranslations prov maxLength retranslate (diffObjects base original) lang with
  | .error e => .error e
  | .ok none => .error (.typeError "Cannot read properties of null (reading results)")
  | .ok (some updates) => .ok (jsMerge updates.results original)

/-- Observable outcome of `acquireMissingTranslations` for one base file:
the writes performed (per target language) and the error caught by the
per-file `try/catch`, if any. -/
structure FileRunOutcome where
  writes : List (String × JObj)
  loggedError : Option JSError

/--
Method `acquireMissingTranslations(baseFile, languages, isDir)` from
`src/lib/translate.ts`, flattening the `Promise.all` fan-out: each target
language's task runs to completion independently of its siblings (a
rejected sibling promise does not cancel the others), a task that throws
performs no write, and the surrounding `try/catch` logs the first
rejection.  `originals` gives the content loaded (`require(pathh)`) for
each target language's file.
-/
def acquireMissingTranslations (prov : Provider) (maxLength : Nat)
    (retranslate : Bool) (base : JObj) (originals : String → JObj)
    (langs : List String) : FileRunOutcome :=
  { writes := langs.filterMap (fun l =>
      match translateTarget prov maxLength retranslate base (originals l) l with
      | .ok w => some (l, w)
      | .error _ => none),
    loggedError := (langs.filterMap (fun l =>
      match translateTarget prov maxLength retranslate base (originals l) l with
      | .ok _ => none
      | .error e => some e)).head? }

/-- Split a character list at every `/`. -/
def splitChars : List Char → List (List Char)
  | [] => [[]]
  | c :: rest =>
    match splitChars rest with
    | [] => [[]]
    | grp :: grps => if c = '/' then [] :: grp :: grps else (c :: grp) :: grps

/-- The `/`-separated components of a path string. -/
def pathParts (p : String) : List String :=
  (splitChars p.data).map (fun l => String.mk l)

/-- Node `path.dirname`: everything before the last `/`, or `.` when the
path has no `/`. -/
def pathDirname (p : String) : String :=
  let parts := pathParts p
  if parts.length ≤ 1 then "." else String.intercalate "/" parts.dropLast

/-- Node `path.basename`: the component after the last `/`. -/
def pathBasename (p : String) : String :=
  ((pathParts p).getLast?).getD ""

/-- The record `FileDetails` from `src/lib/translate.ts`: a resolved file with its
language code. -/
structure FileDetails where
  lang : String
  path : String
  deriving DecidableEq

/-- The pair returned by the two resolver functions. -/
structure ResolvedFiles where
  result : List FileDetails
  referenceLanguage : String
  deriving DecidableEq

/--
Method `getDirectoryFiles(reference)` from `src/lib/translate.ts`:

```ts
const directories = await dirFiles(path.dirname(reference.path));
const files = await Promise.all(directories.map(x => dirFiles(x)));
const result = directories
  .map((pathh, index) =>
    files[index].map(file => ({ lang: path.dirname(pathh), path: file })))
  .flat();
return { result, referenceLanguage: path.basename(reference.path) };
```

`listDir` models `dirFiles` (Node `fs.readdir`, which yields bare entry
names).  Note the source computes `lang` as `path.dirname(pathh)` — the
directory part of the subdirectory entry — not its name.
-/
def getDirectoryFiles (listDir : String → List String) (refPath : String) :
    ResolvedFiles :=
  let directories := listDir (pathDirname refPath)
  { result := (directories.map (fun pathh =>
      (listDir pathh).map (fun file => FileDetails.mk (pathDirname pathh) file))).flatten,
    referenceLanguage := pathBasename refPath }

/-- JavaScript `[...new Set(xs)]`: deduplication keeping the first occurrence of each
element, in order. -/
def uniqueList (seen : List String) : List String → List String
  | [] => []
  | x :: rest =>
    if x ∈ seen then uniqueList seen rest
    else x :: uniqueList (x :: seen) rest

/-- The effective language set computed in `runReference`:
`this.config.languages ? this.config.languages : [...new Set(files.result.map(x => x.lang))]`.
`none` models an absent `languages` configuration. -/
def effectiveLanguages (cfgLanguages : Option (List String))
    (discovered : List String) : List String :=
  match cfgLanguages with
  | some ls => ls
  | none => uniqueList [] discovered

/--
Method `createEmptyFiles(reference, baseFile, isDir)` from `src/lib/translate.ts`
computes, for each language, the path whose existence it ensures:

```ts
await Promise.all(
  this.config.languages.map(language => {
    const fileToCheck = isDir
      ? path.dirname(reference.path) + '/' + language + '/' + path.basename(baseFile.path)
      : path.dirname(reference.path) + '/' + language + '.json';
    return !fs.existsSync(fileToCheck) ? writeFile(fileToCheck, '{}') : null;
  })
);
```

It reads `this.config.languages` (not the effective language list computed
in `runReference`), so when the configuration supplies no `languages` the
`.map` access on `undefined` throws a `TypeError`.
-/
def createEmptyFilePaths (cfgLanguages : Option (List String))
    (refPath : String) (baseFilePath : String) (isDir : Bool) :
    Except JSError (List String) :=
  match cfgLanguages with
  | none => .error (.typeError "Cannot read properties of undefined (reading map)")
  | some ls => .ok (ls.map fun language =>
      if isDir then pathDirname refPath ++ "/" ++ language ++ "/" ++ pathBasename baseFilePath
      else pathDirname refPath ++ "/" ++ language ++ ".json")

/-! ## Helper lemmas -/

/-- The entry contributed by one target key in `diffObjects`. -/
def diffEntry (base : JObj) (k : String) (v : JSON) : JObj :=
  match jslookup base k with
  | none => [(k, v)]
  | some b =>
    if jeq v b then []
    else
      match v, b with
      | JSON.obj vo, JSON.obj bo =>
        if truthy (JSON.obj bo) then [] else [(k, JSON.obj (diffObjects vo bo))]
      | v, b => if truthy b then [] else [(k, v)]

theorem diffObjects_nil (base : JObj) : diffObjects base [] = [] := by
  simp [diffObjects]

theorem diffObjects_cons (base : JObj) (k : String) (v : JSON) (rest : JObj) :
    diffObjects base ((k, v) :: rest) = diffEntry base k v ++ diffObjects base rest := by
  rw [diffObjects, diffEntry]
  cases hb : jslookup base k with
  | none => rfl
  | some b =>
    by_cases hje : jeq v b
    · simp [hje]
    · cases v <;> cases b <;> simp [hje]

theorem diffEntry_key (base : JObj) (k : String) (v : JSON) (p : String × JSON)
    (hp : p ∈ diffEntry base k v) : p.1 = k := by
  rw [diffEntry] at hp
  cases hb : jslookup base k with
  | none => simp [hb] at hp; simp [hp]
  | some b =>
    rw [hb] at hp
    by_cases hje : jeq v b
    · simp [hje] at hp
    · cases v <;> cases b <;> simp [hje] at hp <;>
        first
          | (split at hp <;> simp_all)
          | simp [hp]

theorem jslookup_append_some {l₁ : JObj} (l₂ : JObj) {k : String} {v : JSON}
    (h : jslookup l₁ k = some v) : jslookup (l₁ ++ l₂) k = some v := by
  induction l₁ with
  | nil => simp [jslookup] at h
  | cons hd tl ih =>
    obtain ⟨k1, v1⟩ := hd
    simp only [jslookup, List.cons_append] at h ⊢
    by_cases hk : k1 = k
    · simpa [hk] using h
    · simp [hk] at h ⊢
      exact ih h

theorem jslookup_append_none {l₁ : JObj} (l₂ : JObj) {k : String}
    (h : jslookup l₁ k = none) : jslookup (l₁ ++ l₂) k = jslookup l₂ k := by
  induction l₁ with
  | nil => simp [jslookup]
  | cons hd tl ih =>
    obtain ⟨k1, v1⟩ := hd
    simp only [jslookup, List.cons_append] at h ⊢
    by_cases hk : k1 = k
    · simp [hk] at h
    · simp [hk] at h ⊢
      exact ih h

theorem jslookup_map_values (t o : JObj) (k : String) :
    jslookup (t.map (fun kv =>
      match jslookup o kv.1 with
      | some w => (kv.1, w)
      | none => kv)) k =
      match jslookup t k with
      | none => none
      | some v =>
        match jslookup o k with
        | some w => some w
        | none => some v := by
  induction t with
  | nil => simp [jslookup]
  | cons hd tl ih =>
    obtain ⟨k1, v1⟩ := hd
    by_cases hk : k1 = k
    · subst hk
      cases ho : jslookup o k1 <;> simp [jslookup, ho]
    · cases ho : jslookup o k1 <;> simp [jslookup, ho, hk] <;> exact ih

theorem jslookup_filter_keys (t o : JObj) (k : String) :
    jslookup (o.filter (fun kv => (jslookup t kv.1).isNone)) k =
      if (jslookup t k).isNone then jslookup o k else none := by
  induction o with
  | nil => simp [jslookup]
  | cons hd tl ih =>
    obtain ⟨k1, v1⟩ := hd
    by_cases hk : k1 = k
    · subst hk
      cases ht : jslookup t k1 <;> simp [jslookup, ht, List.filter] <;> simp [ht] at ih <;>
        simpa [jslookup] using ih
    · cases ht1 : (jslookup t k1).isNone <;> simp [jslookup, List.filter, ht1, hk] <;> exact ih

/-- Lookup in `{ ...t, ...o }`: a key of `o` gets `o`'s value, a key only
in `t` gets `t`'s value. -/
theorem jslookup_jsMerge (t o : JObj) (k : String) :
    jslookup (jsMerge t o) k =
      match jslookup t k with
      | none => jslookup o k
      | some v =>
        match jslookup o k with
        | some w => some w
        | none => some v := by
  rw [jsMerge]
  cases ht : jslookup t k with
  | none =>
    have h1 : jslookup (t.map (fun kv =>
        match jslookup o kv.1 with
        | some w => (kv.1, w)
        | none => kv)) k = none := by
      rw [jslookup_map_values, ht]
    rw [jslookup_append_none _ h1, jslookup_filter_keys, ht]
    simp
  | some v =>
    cases ho : jslookup o k with
    | none =>
      have h1 : jslookup (t.map (fun kv =>
          match jslookup o kv.1 with
          | some w => (kv.1, w)
          | none => kv)) k = some v := by
        rw [jslookup_map_values, ht, ho]
      rw [jslookup_append_some _ h1]
    | some w =>
      have h1 : jslookup (t.map (fun kv =>
          match jslookup o kv.1 with
          | some w => (kv.1, w)
          | none => kv)) k = some w := by
        rw [jslookup_map_values, ht, ho]
      rw [jslookup_append_some _ h1]

/-! ## Concrete collaborators for scenario runs -/

/-- A provider for concrete runs: translates `"Hello"` to `"Bonjour"` (as in
the spec's scenario) and echoes other strings. -/
def provBonjour : Provider := fun s _ => .ok (if s = "Hello" then "Bonjour" else s)

/-- A provider appending `"!"` to the input text. -/
def provBang : Provider := fun s _ => .ok (s ++ "!")

/-- A provider that rejects on the text `"boom"` and appends `"!"`
otherwise. -/
def provFail : Provider := fun s _ =>
  if s = "boom" then .error (.providerError "quota exceeded") else .ok (s ++ "!")

/-- Per-language target-file contents for the error-containment scenario:
the French file holds the leaf the provider rejects on, the German file a
translatable one. -/
def demoOriginals : String → JObj := fun l =>
  if l = "fr" then [("A", JSON.str "boom")] else [("B", JSON.str "ok")]

/-- Directory listing for the directory-mode scenario: `/i18n` holds the
subfolders `en`, `fr`, `de`, each holding `common.json`.  (`fs.readdir`
yields bare entry names; the source then lists those bare names.) -/
def demoListDir : String → List String := fun p =>
  if p = "/i18n" then ["en", "fr", "de"]
  else if p = "en" ∨ p = "fr" ∨ p = "de" then ["common.json"] else []

/-! ## Claim theorems -/

/-- C1: the spec's scenario claims that for base `{"Title": "Hello"}` and
target `{}` the gap tree is `{"Title": "Hello"}`, the provider is called
with `("Hello", "fr")` and `{"Title": "Bonjour"}` is written.  The code
disagrees: `diffObjects` iterates the *target*'s keys, so the gap tree is
empty; `getTranslations` then returns `null`, the driver's `updates.results`
access throws a `TypeError`, and nothing is written for the target file. -/
theorem c1_scenario_gap_tree_is_empty :
    diffObjects [("Title", JSON.str "Hello")] [] = [] ∧
    getTranslations provBonjour 100 false [] "fr" = .ok none ∧
    translateTarget provBonjour 100 false [("Title", JSON.str "Hello")] [] "fr" =
      .error (.typeError "Cannot read properties of null (reading results)") ∧
    (acquireMissingTranslations provBonjour 100 false
        [("Title", JSON.str "Hello")] (fun _ => []) ["fr"]).writes = [] := by
  refine ⟨by simp [diffObjects], by simp [getTranslations], ?_, ?_⟩
  · simp [translateTarget, diffObjects, getTranslations]
  · simp [acquireMissingTranslations, translateTarget, diffObjects, getTranslations]

/-- C2: the claim says every key of a gap-tree node is processed and the
returned results mapping has an entry for every key.  The code `return`s
inside the first loop iteration on every branch, so for the two-key node
`{"A": "x", "B": "y"}` only `"A"` is processed: the returned mapping is
`{"A": "x!"}` and has no entry for `"B"`. -/
theorem c2_only_first_key_processed :
    getTranslations provBang 100 false
      [("A", JSON.str "x"), ("B", JSON.str "y")] "fr" =
      .ok (some ⟨[("A", JSON.str "x!")], true⟩) ∧
    jslookup [("A", JSON.str "x!")] "B" = none := by
  constructor
  · simp [getTranslations, provBang]
    decide
  · rfl

/-- C5: the claim says each resolved `FileDescriptor`'s language equals the
subdirectory's name.  The code sets `lang: path.dirname(pathh)` — for the
bare entry names `fs.readdir` yields this is always `"."` — so with
subfolders `en`, `fr`, `de` each holding `common.json` every descriptor
gets language `"."`, and in particular no descriptor matches the reference
language `"en"` (the `baseFiles` filter in `runReference` comes up empty). -/
theorem c5_directory_lang_is_dirname :
    getDirectoryFiles demoListDir "/i18n/en" =
      { result := [⟨".", "common.json"⟩, ⟨".", "common.json"⟩, ⟨".", "common.json"⟩],
        referenceLanguage := "en" } ∧
    ((getDirectoryFiles demoListDir "/i18n/en").result.filter
      (fun x => x.lang = (getDirectoryFiles demoListDir "/i18n/en").referenceLanguage)) = [] := by
  decide

/-- C9: the claim says the effective language set falls back to the
discovered languages when none are configured, and that target files are
created for every language of that effective set.  The fallback does exist
for the translation step (`effectiveLanguages`), but `createEmptyFiles`
reads `this.config.languages` directly, so with no configured languages the
`.map` access on `undefined` throws a `TypeError` instead of creating the
files for the discovered languages. -/
theorem c9_create_files_ignores_fallback :
    effectiveLanguages (some ["fr", "de"]) ["en", "fr"] = ["fr", "de"] ∧
    effectiveLanguages none ["en", "fr", "en"] = ["en", "fr"] ∧
    createEmptyFilePaths none "/i18n/en" "/i18n/en/common.json" true =
      .error (.typeError "Cannot read properties of undefined (reading map)") ∧
    createEmptyFilePaths (some ["fr", "de"]) "/i18n/en" "/i18n/en/common.json" true =
      .ok ["/i18n/fr/common.json", "/i18n/de/common.json"] := by
  refine ⟨rfl, by decide, rfl, rfl⟩

/-- A target key whose value differs from a falsy base-side value is
included in the gap tree with the target's raw value. -/
theorem diffObjects_lookup_falsy (base : JObj) (k : String) (v : JSON)
    (hneq : ∀ b, jslookup base k = some b → jeq v b = false)
    (hfalsy : truthyOpt (jslookup base k) = false) :
    ∀ tgt : JObj, (tgt.map Prod.fst).Nodup → jslookup tgt k = some v →
      jslookup (diffObjects base tgt) k = some v := by
  intro tgt
  induction tgt with
  | nil => intro _ hv; simp [jslookup] at hv
  | cons hd tl ih =>
    obtain ⟨k1, v1⟩ := hd
    intro hnd hv
    rw [diffObjects_cons]
    by_cases hk : k1 = k
    · subst hk
      have hv1 : v1 = v := by simpa [jslookup] using hv
      subst hv1
      have hent : diffEntry base k1 v1 = [(k1, v1)] := by
        rw [diffEntry]
        cases hb : jslookup base k1 with
        | none => rfl
        | some b =>
          have hne := hneq b hb
          rw [hb] at hfalsy
          simp only [truthyOpt] at hfalsy
          simp only [hne, Bool.false_eq_true, if_false]
          cases v1 <;> cases b <;> simp [hfalsy] <;> simp [truthy] at hfalsy
      rw [hent]
      exact jslookup_append_some _ (by simp [jslookup])
    · have hv' : jslookup tl k = some v := by simpa [jslookup, hk] using hv
      have hnd' : (tl.map Prod.fst).Nodup := by
        simpa using hnd.of_cons
      have hent : jslookup (diffEntry base k1 v1) k = none := by
        cases hde : diffEntry base k1 v1 with
        | nil => rfl
        | cons p ps =>
          have hp : p.1 = k1 := diffEntry_key base k1 v1 p (by rw [hde]; exact List.mem_cons_self p ps)
          have hps : ps = [] := by
            rcases hb : jslookup base k1 with _ | b <;> rw [diffEntry, hb] at hde
            · simp at hde
              exact hde.2
            · by_cases hje : jeq v1 b
              · simp [hje] at hde
              · simp only [hje, Bool.false_eq_true, if_false] at hde
                cases v1 <;> cases b <;> simp at hde <;>
                  first
                    | (split at hde <;> simp_all)
                    | exact hde.2
          subst hps
          obtain ⟨pk, pv⟩ := p
          simp at hp
          simp [jslookup, hp, hk]
      rw [jslookup_append_none _ hent]
      exact ih hnd' hv'

/-- C4: in `diff(base, target)`, for a target key whose value is not
deep-equal to the base's and whose base-side value is falsy: were both
sides objects, the recursively computed nested gap tree would be included
(this situation cannot arise, since an object is never falsy, so the
implication holds vacuously); otherwise the target's raw value is included
under that key. -/
theorem c4_falsy_key_included (base tgt : JObj)
    (hnd : (tgt.map Prod.fst).Nodup) (k : String) (v : JSON)
    (hv : jslookup tgt k = some v)
    (hneq : ∀ b, jslookup base k = some b → jeq v b = false)
    (hfalsy : truthyOpt (jslookup base k) = false) :
    (∀ vo bo, v = JSON.obj vo → jslookup base k = some (JSON.obj bo) →
      jslookup (diffObjects base tgt) k = some (JSON.obj (diffObjects vo bo))) ∧
    ((isObjectOpt (some v) && isObjectOpt (jslookup base k)) = false →
      jslookup (diffObjects base tgt) k = some v) := by
  constructor
  · intro vo bo _ hb
    rw [hb] at hfalsy
    simp [truthyOpt, truthy] at hfalsy
  · intro _
    exact diffObjects_lookup_falsy base k v hneq hfalsy tgt hnd hv

/-- Witness for `c4_falsy_key_included`: base `{"Count": 0}` (falsy),
target `{"Count": "five"}`; the gap tree includes the target's raw value. -/
theorem c4_falsy_key_included_witness :
    jslookup (diffObjects [("Count", JSON.num 0)] [("Count", JSON.str "five")]) "Count" =
      some (JSON.str "five") :=
  (c4_falsy_key_included [("Count", JSON.num 0)] [("Count", JSON.str "five")]
    (by simp) "Count" (JSON.str "five") rfl
    (by intro b hb; simp [jslookup] at hb; subst hb; simp [jeq]) rfl).2 rfl

/-- For a non-empty node, the returned results mapping is a singleton at
the node's first key. -/
theorem getTranslations_cons_results (prov : Provider) (maxLength : Nat)
    (retranslate : Bool) (k0 : String) (item : JSON) (rest : JObj)
    (lang : String) (r : TransResult)
    (hr : getTranslations prov maxLength retranslate ((k0, item) :: rest) lang =
      .ok (some r)) :
    ∃ X, r.results = [(k0, X)] := by
  cases item with
  | str s0 =>
    by_cases hlen : s0.length > maxLength
    · simp [getTranslations, hlen] at hr
      exact ⟨JSON.str MISSING_TRANSLATION, by rw [← hr]⟩
    · rcases hp : prov s0 lang with e | t <;> simp [getTranslations, hlen, hp] at hr
      exact ⟨JSON.str t, by rw [← hr]⟩
  | obj sub =>
    rcases hs : getTranslations prov maxLength retranslate sub lang with e | osub <;>
      simp [getTranslations, hs] at hr
    cases osub with
    | none => simp at hr
    | some val =>
      simp at hr
      exact ⟨JSON.bool val.translated, by rw [← hr]⟩
  | null => simp [getTranslations] at hr
  | num m => simp [getTranslations] at hr
  | bool b => simp [getTranslations] at hr

/-- C3: when the recursive walk aggregates a node whose (first) key holds a
nested tree, the content mapping stores the nested boolean `translated`
flag — not the nested content mapping; and any entry the returned mapping
holds at a nested-tree key is such a boolean. -/
theorem c3_nested_collapses_to_flag (prov : Provider) (maxLength : Nat)
    (retranslate : Bool) (lang : String) :
    (∀ (key : String) (sub rest : JObj) (val : TransResult),
      getTranslations prov maxLength retranslate sub lang = .ok (some val) →
      getTranslations prov maxLength retranslate ((key, JSON.obj sub) :: rest) lang =
        .ok (some ⟨[(key, JSON.bool val.translated)], val.translated⟩)) ∧
    (∀ (o : JObj) (r : TransResult) (k : String) (s : JObj) (v : JSON),
      getTranslations prov maxLength retranslate o lang = .ok (some r) →
      jslookup o k = some (JSON.obj s) →
      jslookup r.results k = some v →
      ∃ b : Bool, v = JSON.bool b) := by
  constructor
  · intro key sub rest val h
    simp [getTranslations, h]
  · intro o r k s v hr ho hv
    match o with
    | [] => simp [getTranslations] at hr
    | (k0, item) :: rest =>
      obtain ⟨X, hX⟩ := getTranslations_cons_results prov maxLength retranslate k0 item rest lang r hr
      by_cases hk : k0 = k
      · subst hk
        have hitem : item = JSON.obj s := by simpa [jslookup] using ho
        subst hitem
        rcases hs : getTranslations prov maxLength retranslate s lang with e | osub <;>
          simp [getTranslations, hs] at hr
        cases osub with
        | none => simp at hr
        | some val =>
          simp at hr
          rw [← hr] at hv
          simp [jslookup] at hv
          exact ⟨val.translated, hv.symm⟩
      · rw [hX] at hv
        simp [jslookup, hk] at hv

/-- Witness for `c3_nested_collapses_to_flag`: translating
`{"K": {"A": "x"}}` yields `{"K": true}` — the nested flag, not the nested
content `{"A": "x!"}`. -/
theorem c3_nested_collapses_to_flag_witness :
    getTranslations provBang 100 false [("K", JSON.obj [("A", JSON.str "x")])] "fr" =
      .ok (some ⟨[("K", JSON.bool true)], true⟩) :=
  (c3_nested_collapses_to_flag provBang 100 false "fr").1 "K" [("A", JSON.str "x")] []
    ⟨[("A", JSON.str "x!")], true⟩ (by simp [getTranslations, provBang]; decide)

/-- C6: a provider rejection during one target file's translation makes
that file's task throw, the per-file catch records the error, nothing is
written for that file, and every sibling language whose own task succeeds
still gets its write. -/
theorem c6_provider_error_contained (prov : Provider) (maxLength : Nat)
    (retranslate : Bool) (base : JObj) (originals : String → JObj)
    (langs : List String) (lang : String) (e : JSError)
    (hmem : lang ∈ langs)
    (herr : getTranslations prov maxLength retranslate
      (diffObjects base (originals lang)) lang = .error e) :
    (∀ w : JObj, (lang, w) ∉
      (acquireMissingTranslations prov maxLength retranslate base originals langs).writes) ∧
    (acquireMissingTranslations prov maxLength retranslate base originals langs).loggedError.isSome ∧
    (∀ (l : String) (w : JObj), l ∈ langs →
      translateTarget prov maxLength retranslate base (originals l) l = .ok w →
      (l, w) ∈ (acquireMissingTranslations prov maxLength retranslate base originals langs).writes) := by
  have htt : translateTarget prov maxLength retranslate base (originals lang) lang = .error e := by
    simp [translateTarget, herr]
  refine ⟨?_, ?_, ?_⟩
  · intro w hw
    simp only [acquireMissingTranslations, List.mem_filterMap] at hw
    obtain ⟨l, _, hfl⟩ := hw
    rcases h2 : translateTarget prov maxLength retranslate base (originals l) l with e2 | w2 <;>
      rw [h2] at hfl <;> simp at hfl
    obtain ⟨hl, _⟩ := hfl
    subst hl
    rw [htt] at h2
    exact Except.noConfusion h2
  · simp only [acquireMissingTranslations]
    have hmem2 : e ∈ langs.filterMap (fun l =>
        match translateTarget prov maxLength retranslate base (originals l) l with
        | .ok _ => none
        | .error e => some e) := by
      refine List.mem_filterMap.2 ⟨lang, hmem, ?_⟩
      rw [htt]
    cases hfm : langs.filterMap (fun l =>
        match translateTarget prov maxLength retranslate base (originals l) l with
        | .ok _ => none
        | .error e => some e) with
    | nil => rw [hfm] at hmem2; simp at hmem2
    | cons a as => simp [hfm]
  · intro l w hl hok
    exact List.mem_filterMap.2 ⟨l, hl, by rw [hok]⟩

/-- Witness for `c6_provider_error_contained`: the provider rejects the
French file's leaf; no French write happens, the error is logged, and the
German file is still written. -/
theorem c6_provider_error_contained_witness :
    (("fr", ([] : JObj)) ∉
      (acquireMissingTranslations provFail 100 false [] demoOriginals ["fr", "de"]).writes) ∧
    (acquireMissingTranslations provFail 100 false [] demoOriginals ["fr", "de"]).loggedError.isSome ∧
    ("de", [("B", JSON.str "ok")]) ∈
      (acquireMissingTranslations provFail 100 false [] demoOriginals ["fr", "de"]).writes := by
  have h := c6_provider_error_contained provFail 100 false [] demoOriginals ["fr", "de"] "fr"
    (.providerError "quota exceeded") (by simp)
    (by simp [diffObjects, getTranslations, demoOriginals, provFail, jslookup]; decide)
  refine ⟨h.1 [], h.2.1, h.2.2 "de" [("B", JSON.str "ok")] (by simp) ?_⟩
  have hlen : ¬ (100 < ("ok" : String).length) := by decide
  simp [translateTarget, diffObjects, getTranslations, demoOriginals, provFail,
    jslookup, jsMerge, hlen]

/-- The walk's result does not depend on the provider's behaviour at
strings longer than `maxLength`: providers that agree on all strings of
length at most `maxLength` produce identical results. -/
theorem getTranslations_provider_agnostic (maxLength : Nat) (retranslate : Bool)
    (p₁ p₂ : Provider) (hagree : ∀ s l, s.length ≤ maxLength → p₁ s l = p₂ s l) :
    ∀ (n : Nat) (o : JObj) (lang : String), jsize.osize o ≤ n →
      getTranslations p₁ maxLength retranslate o lang =
        getTranslations p₂ maxLength retranslate o lang := by
  intro n
  induction n with
  | zero =>
    intro o lang h
    cases o with
    | nil => simp [getTranslations]
    | cons hd tl => obtain ⟨k, v⟩ := hd; simp [jsize.osize] at h
  | succ n ih =>
    intro o lang h
    match o with
    | [] => simp [getTranslations]
    | (key, item) :: rest =>
      cases item with
      | str s =>
        by_cases hlen : s.length > maxLength
        · simp [getTranslations, hlen]
        · have hps := hagree s lang (by omega)
          simp [getTranslations, hlen, hps]
      | obj sub =>
        have hsub : jsize.osize sub ≤ n := by
          simp [jsize.osize, jsize] at h
          omega
        have hrec := ih sub lang hsub
        simp [getTranslations, hrec]
      | null => simp [getTranslations]
      | num m => simp [getTranslations]
      | bool b => simp [getTranslations]

/-- C7: a string leaf longer than `maxLength` never reaches the provider —
the walk's result is invariant under any change of the provider at
over-length strings — and the processed over-length leaf is replaced by the
fixed missing-translation marker with the `translated` flag equal to the
`retranslate` configuration flag. -/
theorem c7_overlength_leaf_skips_provider (maxLength : Nat) (retranslate : Bool)
    (lang : String) :
    (∀ p₁ p₂ : Provider, (∀ s l, s.length ≤ maxLength → p₁ s l = p₂ s l) →
      ∀ o : JObj, getTranslations p₁ maxLength retranslate o lang =
        getTranslations p₂ maxLength retranslate o lang) ∧
    (∀ (p : Provider) (key s : String) (rest : JObj), s.length > maxLength →
      getTranslations p maxLength retranslate ((key, JSON.str s) :: rest) lang =
        .ok (some ⟨[(key, JSON.str MISSING_TRANSLATION)], retranslate⟩)) := by
  constructor
  · intro p₁ p₂ hagree o
    exact getTranslations_provider_agnostic maxLength retranslate p₁ p₂ hagree
      (jsize.osize o) o lang le_rfl
  · intro p key s rest hlen
    simp [getTranslations, hlen]

/-- A provider echoing its input. -/
def provEcho : Provider := fun s _ => .ok s

/-- A provider that rejects any text longer than three characters and
echoes shorter text: it detects any over-length provider call. -/
def provLenGuard : Provider := fun s _ =>
  if s.length ≤ 3 then .ok s else .error (.providerError "over-length call")

/-- Witness for `c7_overlength_leaf_skips_provider`: with `maxLength = 3`
and `retranslate = true`, the four-character leaf is never sent to the
provider (swapping in a provider that rejects over-length text changes
nothing) and becomes the marker with `translated = true`. -/
theorem c7_overlength_leaf_skips_provider_witness :
    getTranslations provEcho 3 true [("K", JSON.str "abcd")] "fr" =
      getTranslations provLenGuard 3 true [("K", JSON.str "abcd")] "fr" ∧
    getTranslations provEcho 3 true [("K", JSON.str "abcd")] "fr" =
      .ok (some ⟨[("K", JSON.str MISSING_TRANSLATION)], true⟩) := by
  refine ⟨(c7_overlength_leaf_skips_provider 3 true "fr").1 provEcho provLenGuard ?_ _,
    (c7_overlength_leaf_skips_provider 3 true "fr").2 provEcho "K" "abcd" [] (by decide)⟩
  intro s l h
  simp [provEcho, provLenGuard, h]

/-- C8: the content written back is `{ ...translated, ...original }`: every
key present in the original keeps the original's value; when the original
already contains every key the translated results produce, the merge is
extensionally the original; and every successful write is such a merge. -/
theorem c8_merge_original_wins (t o : JObj) (prov : Provider) (maxLength : Nat)
    (retranslate : Bool) (base : JObj) (lang : String) :
    (∀ (k : String) (v : JSON), jslookup o k = some v →
      jslookup (jsMerge t o) k = some v) ∧
    ((∀ k : String, (jslookup t k).isSome → (jslookup o k).isSome) →
      ∀ k : String, jslookup (jsMerge t o) k = jslookup o k) ∧
    (∀ w : JObj, translateTarget prov maxLength retranslate base o lang = .ok w →
      ∃ u : JObj, w = jsMerge u o) := by
  refine ⟨?_, ?_, ?_⟩
  · intro k v hv
    rw [jslookup_jsMerge]
    cases ht : jslookup t k <;> simp [hv]
  · intro hsub k
    rw [jslookup_jsMerge]
    cases ht : jslookup t k with
    | none => simp
    | some v =>
      have hok := hsub k (by simp [ht])
      cases ho : jslookup o k with
      | none => rw [ho] at hok; simp at hok
      | some w => simp
  · intro w hw
    rcases hg : getTranslations prov maxLength retranslate (diffObjects base o) lang with e | ou <;>
      rw [translateTarget, hg] at hw
    · exact Except.noConfusion hw
    · cases ou with
      | none => exact Except.noConfusion hw
      | some u =>
        simp at hw
        exact ⟨u.results, hw.symm⟩

/-- Witness for `c8_merge_original_wins`: merging `{"A": "t"}` into the
original `{"A": "o", "B": "b"}` keeps the original's values. -/
theorem c8_merge_original_wins_witness :
    jslookup (jsMerge [("A", JSON.str "t")] [("A", JSON.str "o"), ("B", JSON.str "b")]) "A" =
      some (JSON.str "o") ∧
    jslookup (jsMerge [("A", JSON.str "t")] [("A", JSON.str "o"), ("B", JSON.str "b")]) "B" =
      jslookup [("A", JSON.str "o"), ("B", JSON.str "b")] "B" := by
  have h := c8_merge_original_wins [("A", JSON.str "t")]
    [("A", JSON.str "o"), ("B", JSON.str "b")] provBang 100 false [] "fr"
  refine ⟨h.1 "A" (JSON.str "o") rfl, h.2.1 ?_ "B"⟩
  intro k hk
  by_cases hA : ("A" : String) = k
  · subst hA
    simp [jslookup]
  · simp [jslookup, hA] at hk

/-- C10 counterexample: for base = target = `{"A": "x"}` the gap tree is
empty and `getTranslations` returns `null`; but the driver does not then
write the original content unchanged — the `updates.results` access on
`null` throws, so the per-language task produces an error and no write. -/
theorem c10_counterexample :
    diffObjects [("A", JSON.str "x")] [("A", JSON.str "x")] = [] ∧
    getTranslations provBang 100 false [] "fr" = .ok none ∧
    translateTarget provBang 100 false [("A", JSON.str "x")] [("A", JSON.str "x")] "fr" =
      .error (.typeError "Cannot read properties of null (reading results)") ∧
    translateTarget provBang 100 false [("A", JSON.str "x")] [("A", JSON.str "x")] "fr" ≠
      .ok [("A", JSON.str "x")] := by
  have hd : diffObjects [("A", JSON.str "x")] [("A", JSON.str "x")] = [] := by
    simp [diffObjects, jslookup, jeq]
  have ht : translateTarget provBang 100 false [("A", JSON.str "x")] [("A", JSON.str "x")] "fr" =
      .error (.typeError "Cannot read properties of null (reading results)") := by
    simp [translateTarget, hd, getTranslations]
  refine ⟨hd, by simp [getTranslations], ht, ?_⟩
  rw [ht]
  exact fun h => Except.noConfusion h

/-- C10 (amended): on an empty gap tree `getTranslations` returns `null`;
the driver's `updates.results` access on that `null` then throws a
`TypeError`, which is caught at the per-file level, and the target file is
not written at all (its on-disk content is untouched because no write
occurs, not because the original is re-written). -/
theorem c10_empty_gap_throws (prov : Provider) (maxLength : Nat) (retranslate : Bool)
    (base original : JObj) (lang : String)
    (hdiff : diffObjects base original = []) :
    getTranslations prov maxLength retranslate [] lang = .ok none ∧
    translateTarget prov maxLength retranslate base original lang =
      .error (.typeError "Cannot read properties of null (reading results)") ∧
    (acquireMissingTranslations prov maxLength retranslate base
      (fun _ => original) [lang]).writes = [] := by
  have ht : translateTarget prov maxLength retranslate base original lang =
      .error (.typeError "Cannot read properties of null (reading results)") := by
    simp [translateTarget, hdiff, getTranslations]
  refine ⟨by simp [getTranslations], ht, ?_⟩
  simp [acquireMissingTranslations, ht]

/-- Witness for `c10_empty_gap_throws`: base = target = `{"A": "x"}`. -/
theorem c10_empty_gap_throws_witness :
    getTranslations provBonjour 100 true [] "de" = .ok none ∧
    translateTarget provBonjour 100 true [("A", JSON.str "x")] [("A", JSON.str "x")] "de" =
      .error (.typeError "Cannot read properties of null (reading results)") ∧
    (acquireMissingTranslations provBonjour 100 true [("A", JSON.str "x")]
      (fun _ => [("A", JSON.str "x")]) ["de"]).writes = [] :=
  c10_empty_gap_throws provBonjour 100 true [("A", JSON.str "x")] [("A", JSON.str "x")] "de"
    (by simp [diffObjects, jslookup, jeq])

end Buildr
